import Mathlib

/-!
Verification of `src/mailoney/export_mailoney_logs.py` against its
specification.  The script reads every row of the fixed SQLite table
`smtp_sessions`, builds `dict(zip(columns, row))` per row, and writes each
dict as one JSON line (Python `json.dump` followed by `"\n"`) into the
output file opened with mode `"w"`; the connection is closed by a manual
`conn.close()` after the `with` block.

The embedding models SQLite values, Python dict-of-zip construction,
CPython's `json` encoder (`ensure_ascii=True`, default separators;
`json.dump` streams the pure-Python `iterencode` generator chunk by chunk
into the file, so a `TypeError` on a `bytes` value leaves the chunks
already yielded for the failing object — its opening brace, the items
before the failing one, and the failing entry's key and key separator —
in the file), the semantics of `sqlite3.connect` (which creates a missing
database file and defers validity checks to query time), the
`with open(...)` block (file closed on every exit path, flushing what was
written), and the manual `conn.close()` (executed only when no exception
was raised).
-/

/-- A SQLite column value as surfaced by the `sqlite3` driver: text,
integer, real, NULL or blob.  A real is carried as the decimal literal
that Python `repr` produces for the float (the embedding treats float
formatting as given data; `json.dump` emits exactly that literal). -/
inductive SV where
  | textV : String → SV
  | intV : Int → SV
  | realV : String → SV
  | nullV : SV
  | blobV : List Nat → SV
deriving DecidableEq, Repr

/-- The sixteen hexadecimal digit characters, lowercase, as used by
Python's `\uXXXX` escapes. -/
def hexDigitChar : Nat → Char
  | 0 => '0' | 1 => '1' | 2 => '2' | 3 => '3' | 4 => '4'
  | 5 => '5' | 6 => '6' | 7 => '7' | 8 => '8' | 9 => '9'
  | 10 => 'a' | 11 => 'b' | 12 => 'c' | 13 => 'd' | 14 => 'e'
  | _ => 'f'

/-- Four-digit lowercase hex rendering of a code unit, as in `é`. -/
def hex4 (n : Nat) : List Char :=
  [hexDigitChar (n / 4096 % 16), hexDigitChar (n / 256 % 16),
   hexDigitChar (n / 16 % 16), hexDigitChar (n % 16)]

/-- CPython `json` string escaping with `ensure_ascii=True`: the two-char
escapes for quote, backslash and the common controls, `\u00XX` for other
controls, the character itself for printable ASCII, and `\uXXXX` (with a
surrogate pair above the BMP) for everything non-ASCII. -/
def escapeChar (c : Char) : List Char :=
  if c = '"' then ['\\', '"']
  else if c = '\\' then ['\\', '\\']
  else if c = '\n' then ['\\', 'n']
  else if c = '\r' then ['\\', 'r']
  else if c = '\t' then ['\\', 't']
  else if c.toNat = 8 then ['\\', 'b']
  else if c.toNat = 12 then ['\\', 'f']
  else if c.toNat < 32 ∨ 126 < c.toNat then
    if c.toNat < 65536 then '\\' :: 'u' :: hex4 c.toNat
    else
      ('\\' :: 'u' :: hex4 (55296 + (c.toNat - 65536) / 1024)) ++
      ('\\' :: 'u' :: hex4 (56320 + (c.toNat - 65536) % 1024))
  else [c]

/-- JSON rendering of a string: escaped content between double quotes. -/
def encodeJString (s : String) : String :=
  "\"" ++ String.mk (s.data.flatMap escapeChar) ++ "\""

/-- Decimal digit character. -/
def digitChar : Nat → Char
  | 0 => '0' | 1 => '1' | 2 => '2' | 3 => '3' | 4 => '4'
  | 5 => '5' | 6 => '6' | 7 => '7' | 8 => '8' | _ => '9'

/-- Decimal digits of a natural number, most significant first
(fuel-driven so that concrete inputs evaluate by `decide`). -/
def natDigitsAux : Nat → Nat → List Char
  | 0, _ => []
  | fuel + 1, n =>
    if n < 10 then [digitChar n]
    else natDigitsAux fuel (n / 10) ++ [digitChar (n % 10)]

/-- Decimal rendering of a natural number. -/
def natDigits (n : Nat) : List Char := natDigitsAux (n + 1) n

/-- Python `repr` of an `int`: decimal digits with a leading `-` for
negative values. -/
def intRepr (n : Int) : String :=
  if n < 0 then "-" ++ String.mk (natDigits n.natAbs)
  else String.mk (natDigits n.toNat)

/-- JSON rendering of a single SQLite value under `json.dump`:
text is escaped and quoted, integers print in decimal, a real prints its
float literal, NULL prints `null`, and a blob (`bytes`) is not JSON
serializable — the encoder raises `TypeError`, modelled as `none`. -/
def encodeValue : SV → Option String
  | .textV s => some (encodeJString s)
  | .intV n => some (intRepr n)
  | .realV lit => some lit
  | .nullV => some "null"
  | .blobV _ => none

/-- Python dict insertion: a present key keeps its position and receives
the new value; a fresh key is appended. -/
def dictInsert : List (String × SV) → String → SV → List (String × SV)
  | [], k, v => [(k, v)]
  | (k', v') :: rest, k, v =>
    if k' = k then (k', v) :: rest else (k', v') :: dictInsert rest k v

/-- `dict(zip(columns, row))`: zip truncates to the shorter list, and the
dict keeps insertion order (Python 3.7+). -/
def dictZip (cols : List String) (row : List SV) : List (String × SV) :=
  (List.zip cols row).foldl (fun d kv => dictInsert d kv.1 kv.2) []

/-- Join a list of strings with a separator between consecutive items. -/
def joinSep (sep : String) : List String → String
  | [] => ""
  | [x] => x
  | x :: y :: xs => x ++ sep ++ joinSep sep (y :: xs)

/-- The `", "`-separated items of a dict, in insertion order, each item
`<escaped key>: <value>`; `none` as soon as some value is a blob. -/
def encodeItems : List (String × SV) → Option (List String)
  | [] => some []
  | kv :: rest =>
    match encodeValue kv.2, encodeItems rest with
    | some v, some parts => some ((encodeJString kv.1 ++ ": " ++ v) :: parts)
    | _, _ => none

/-- The complete document `json.dump` produces for a dict when every
value serializes: `\x7b`…`\x7d` around `", "`-separated items; `none`
when any value is a blob (the encoder raises `TypeError` on it, so no
complete document exists — see `dumpObj` for the text that still reaches
the file in that case). -/
def encodeObj (kvs : List (String × SV)) : Option String :=
  (encodeItems kvs).map (fun parts => "\x7b" ++ joinSep ", " parts ++ "\x7d")

/-- The single JSON line produced for one row: `json.dump(dict(zip(columns,
row)), f)`. -/
def rowLine (cols : List String) (row : List SV) : Option String :=
  encodeObj (dictZip cols row)

example : rowLine ["id", "src_ip"] [SV.intV 1, SV.textV "10.0.0.5"] =
    some "\x7b\"id\": 1, \"src_ip\": \"10.0.0.5\"\x7d" := by decide

example : rowLine [] [] = some "\x7b\x7d" := by decide

example : rowLine ["b"] [SV.blobV [0]] = none := by decide

/-- The item-by-item stream of `_iterencode_dict` after its opening
brace: `json.dump` calls `iterencode` with its one-shot flag off, so the
pure-Python generator runs and every yielded chunk is written to the file
as it arrives.  For each entry it yields the separator (from the second
item on), the escaped key, the `": "` key separator, and then the value;
on a blob the value dispatch raises `TypeError`, after the key and key
separator were already yielded.  `.ok parts` is the list of complete
items; `.error frag` is the concatenated text actually emitted up to and
including the failing entry's key and key separator. -/
def streamItems : List (String × SV) → Except String (List String)
  | [] => .ok []
  | kv :: rest =>
    match encodeValue kv.2 with
    | none => .error (encodeJString kv.1 ++ ": ")
    | some v =>
      match streamItems rest with
      | .ok parts => .ok ((encodeJString kv.1 ++ ": " ++ v) :: parts)
      | .error frag => .error (encodeJString kv.1 ++ ": " ++ v ++ ", " ++ frag)

/-- `json.dump` of one dict into the stream: `.ok doc` is the complete
document when every value serializes; `.error frag` is the text the
generator yielded (and the loop wrote) before the `TypeError` on a blob
propagated — the opening brace, the items before the failing one, and
the failing entry's key and key separator. -/
def dumpObj (kvs : List (String × SV)) : Except String String :=
  match streamItems kvs with
  | .ok parts => .ok ("\x7b" ++ joinSep ", " parts ++ "\x7d")
  | .error frag => .error ("\x7b" ++ frag)

example : dumpObj (dictZip ["id", "payload"] [SV.intV 2, SV.blobV [255]]) =
    .error "\x7b\"id\": 2, \"payload\": " := rfl

example : dumpObj (dictZip ["payload"] [SV.blobV [255]]) =
    .error "\x7b\"payload\": " := rfl

/-- The fixed table queried by the script (`SELECT * FROM smtp_sessions`). -/
def tableName : String := "smtp_sessions"

/-- A SQLite database: named tables, each an ordered column-name list
paired with its rows (each row a list of values). -/
structure Store where
  tables : List (String × (List String × List (List SV)))
deriving DecidableEq, Repr

/-- The database a fresh `sqlite3.connect` creates at a missing path. -/
def emptyStore : Store := ⟨[]⟩

/-- State of the file at `DB_PATH`: absent, present but not a SQLite
database, present and a database, or not openable at the OS level
(e.g. permissions). -/
inductive SourceFile where
  | missing : SourceFile
  | notDB : SourceFile
  | db : Store → SourceFile
  | unopenable : SourceFile
deriving DecidableEq, Repr

/-- Stage-tagged errors of a run, mirroring the exceptions the Python
raises: `storeUnavailable` is `sqlite3.OperationalError` from `connect`
(unable to open the database file), `notADatabase` is the
`sqlite3.DatabaseError` a query raises on a non-database file,
`noSuchTable` is the `OperationalError` for a missing table,
`ioError` is `OSError` from `open(OUT_PATH, "w")`, and
`serializationFailed` is `TypeError` from `json.dump`. -/
inductive ExportError where
  | storeUnavailable : ExportError
  | notADatabase : ExportError
  | noSuchTable : ExportError
  | ioError : ExportError
  | serializationFailed : ExportError
deriving DecidableEq, Repr

deriving instance DecidableEq for Except

/-- A live connection: `sqlite3.connect` is lazy, so a connection to a
non-database file succeeds and only fails when queried. -/
inductive Conn where
  | valid : Store → Conn
  | corrupt : Conn
deriving DecidableEq, Repr

/-- `sqlite3.connect DB_PATH`: creates an empty database at a missing
path, defers validity checking of an existing file, and raises
`OperationalError` only when the path cannot be opened at all.  Returns
the (possibly changed) source file alongside the outcome. -/
def connect : SourceFile → SourceFile × Except ExportError Conn
  | .missing => (.db emptyStore, .ok (.valid emptyStore))
  | .notDB => (.notDB, .ok .corrupt)
  | .db s => (.db s, .ok (.valid s))
  | .unopenable => (.unopenable, .error .storeUnavailable)

/-- `cursor.execute("SELECT * FROM smtp_sessions")` + `fetchall` +
`cursor.description`: fails on a corrupt file or a missing table,
otherwise returns the ordered column names and all rows. -/
def queryAll : Conn → Except ExportError (List String × List (List SV))
  | .corrupt => .error .notADatabase
  | .valid s =>
    match s.tables.lookup tableName with
    | none => .error .noSuchTable
    | some t => .ok t

/-- The loop body of the script: for each row in order, `json.dump` the
dict then write `"\n"`.  Returns the text written to the file together
with the outcome.  On the first row whose dict fails to serialize the
loop stops with the lines of the rows before it still in place, followed
by the partial fragment of the failing row's object that `json.dump`
streamed before the `TypeError` propagated (no trailing newline: the
`f.write("\n")` after the failing `json.dump` is never reached). -/
def writeRows (cols : List String) : List (List SV) → String × Except ExportError Unit
  | [] => ("", .ok ())
  | row :: rest =>
    match dumpObj (dictZip cols row) with
    | .error frag => (frag, .error .serializationFailed)
    | .ok line =>
      let out := writeRows cols rest
      (line ++ "\n" ++ out.1, out.2)

/-- The world the script touches: the source file at `DB_PATH`, whether
`OUT_PATH` can be opened for writing, and the current content of the
file at `OUT_PATH` (`none` when it does not exist). -/
structure World where
  source : SourceFile
  destWritable : Bool
  dest : Option String
deriving DecidableEq, Repr

/-- Outcome of one invocation of `export_logs`: the final world, the
result (normal return or the exception that propagated), and the
resource ledger — whether a connection was opened, whether `conn.close()`
ran, whether the output file was opened, and whether it was closed. -/
structure RunResult where
  world : World
  outcome : Except ExportError Unit
  connOpened : Bool
  connClosed : Bool
  fileOpened : Bool
  fileClosed : Bool
deriving DecidableEq, Repr

/-- `export_logs()`, line by line: connect (line 10), query and fetch
(lines 12–14), `with open(OUT_PATH, "w")` which creates/truncates the
output (line 16), the row loop (lines 17–20), `conn.close()` (line 22).
The `with` block closes the file on every exit path; `conn.close()` runs
only if no exception was raised before it; an exception anywhere
propagates to the caller with no handler. -/
def export_logs (w : World) : RunResult :=
  match connect w.source with
  | (src, .error e) =>
    ⟨⟨src, w.destWritable, w.dest⟩, .error e, false, false, false, false⟩
  | (src, .ok conn) =>
    match queryAll conn with
    | .error e =>
      ⟨⟨src, w.destWritable, w.dest⟩, .error e, true, false, false, false⟩
    | .ok (cols, rows) =>
      if w.destWritable then
        let out := writeRows cols rows
        match out.2 with
        | .error e =>
          ⟨⟨src, w.destWritable, some out.1⟩, .error e, true, false, true, true⟩
        | .ok _ =>
          ⟨⟨src, w.destWritable, some out.1⟩, .ok (), true, true, true, true⟩
      else
        ⟨⟨src, w.destWritable, w.dest⟩, .error .ioError, true, false, false, false⟩

/-- Concatenate lines, terminating each with a newline (the shape of the
output file: every `json.dump` is followed by `f.write("\n")`). -/
def unlines : List String → String
  | [] => ""
  | l :: ls => l ++ "\n" ++ unlines ls

example :
    export_logs ⟨.db ⟨[(tableName, (["id"], [[SV.intV 7]]))]⟩, true, none⟩ =
      ⟨⟨.db ⟨[(tableName, (["id"], [[SV.intV 7]]))]⟩, true,
        some "\x7b\"id\": 7\x7d\n"⟩, .ok (), true, true, true, true⟩ := by
  decide

/-- A standalone JSON value as it may appear as a field of an output
line: a string, an integer number, a non-integer number carried as its
literal, or `null`.  This AST is the embedding's notion of "a JSON
document": a line is valid standalone JSON when it is the rendering of a
list of fields over this AST. -/
inductive JVal where
  | jstr : String → JVal
  | jint : Int → JVal
  | jnum : String → JVal
  | jnull : JVal
deriving DecidableEq, Repr

/-- Standard JSON text for one value. -/
def JVal.render : JVal → String
  | .jstr s => encodeJString s
  | .jint n => intRepr n
  | .jnum lit => lit
  | .jnull => "null"

/-- Standard JSON text of an object with the given ordered fields. -/
def renderJObj (kvs : List (String × JVal)) : String :=
  "\x7b" ++
    joinSep ", " (kvs.map (fun kv => encodeJString kv.1 ++ ": " ++ kv.2.render)) ++
  "\x7d"

/-- The type mapping of the spec: text becomes a JSON string, an integer
becomes a JSON number, a real becomes a JSON number (its float literal),
NULL becomes JSON null; a blob has no JSON image. -/
def jvalOfSV : SV → Option JVal
  | .textV s => some (.jstr s)
  | .intV n => some (.jint n)
  | .realV lit => some (.jnum lit)
  | .nullV => some .jnull
  | .blobV _ => none

/-- Characters that can occur in Python's `repr` of a finite float. -/
def realLitChars : List Char :=
  ['0', '1', '2', '3', '4', '5', '6', '7', '8', '9', '+', '-', '.', 'e', 'E']

/-- Shape of a float literal as produced by `repr` of a finite float:
nonempty, over the float-literal alphabet. -/
def goodLit (s : String) : Bool :=
  !s.isEmpty && s.data.all (fun c => realLitChars.contains c)

/-- Well-formedness of a SQLite value in the embedding: a real's carried
literal must look like a float literal; every other value is
unconstrained. -/
def SV.wf : SV → Bool
  | .realV lit => goodLit lit
  | _ => true

/-- Well-formedness of a JSON value: a non-integer number's literal must
look like a float literal. -/
def JVal.wfJ : JVal → Bool
  | .jnum lit => goodLit lit
  | _ => true

/-- The output text a successful run produces for a store, as a function
of the store alone. -/
def renderStore (s : Store) : Option String :=
  match s.tables.lookup tableName with
  | none => none
  | some t => some (writeRows t.1 t.2).1

theorem dictInsert_of_not_mem (d : List (String × SV)) (k : String) (v : SV)
    (h : k ∉ d.map Prod.fst) : dictInsert d k v = d ++ [(k, v)] := by
  induction d with
  | nil => rfl
  | cons kv rest ih =>
    simp only [List.map_cons, List.mem_cons] at h
    push_neg at h
    simp only [dictInsert, if_neg (Ne.symm h.1), List.cons_append,
      ih h.2]

theorem foldl_dictInsert (pairs : List (String × SV)) (acc : List (String × SV))
    (hnd : (pairs.map Prod.fst).Nodup)
    (hdisj : ∀ k ∈ pairs.map Prod.fst, k ∉ acc.map Prod.fst) :
    pairs.foldl (fun d kv => dictInsert d kv.1 kv.2) acc = acc ++ pairs := by
  induction pairs generalizing acc with
  | nil => simp
  | cons kv rest ih =>
    simp only [List.map_cons, List.nodup_cons] at hnd
    have hk : kv.1 ∉ acc.map Prod.fst := hdisj kv.1 (by simp)
    have step : dictInsert acc kv.1 kv.2 = acc ++ [(kv.1, kv.2)] :=
      dictInsert_of_not_mem acc kv.1 kv.2 hk
    have hdisj' : ∀ k ∈ rest.map Prod.fst,
        k ∉ (acc ++ [(kv.1, kv.2)]).map Prod.fst := by
      intro k hkmem
      simp only [List.map_append, List.mem_append, List.map_cons,
        List.map_nil, List.mem_singleton]
      push_neg
      exact ⟨fun hc => hdisj k (by simp [hkmem]) hc,
        fun hc => hnd.1 (hc ▸ hkmem)⟩
    calc (kv :: rest).foldl (fun d p => dictInsert d p.1 p.2) acc
        = rest.foldl (fun d p => dictInsert d p.1 p.2)
            (acc ++ [(kv.1, kv.2)]) := by
          simp [List.foldl_cons, step]
      _ = acc ++ [(kv.1, kv.2)] ++ rest := ih (acc ++ [(kv.1, kv.2)]) hnd.2 hdisj'
      _ = acc ++ kv :: rest := by simp

theorem map_fst_zip_eq_take (cols : List String) (row : List SV) :
    (List.zip cols row).map Prod.fst = cols.take row.length := by
  induction cols generalizing row with
  | nil => simp
  | cons c cs ih =>
    cases row with
    | nil => simp
    | cons v vs => simp [List.zip_cons_cons, ih]

theorem dictZip_eq_zip (cols : List String) (row : List SV)
    (h : cols.Nodup) : dictZip cols row = List.zip cols row := by
  have hnd : ((List.zip cols row).map Prod.fst).Nodup := by
    rw [map_fst_zip_eq_take]
    exact h.sublist (List.take_sublist _ _)
  simpa using foldl_dictInsert (List.zip cols row) [] hnd (by simp)

theorem streamItems_of_encodeItems (kvs : List (String × SV))
    (parts : List String) (h : encodeItems kvs = some parts) :
    streamItems kvs = .ok parts := by
  induction kvs generalizing parts with
  | nil =>
    simp only [encodeItems, Option.some.injEq] at h
    simp [streamItems, h]
  | cons kv rest ih =>
    simp only [encodeItems] at h
    cases hv : encodeValue kv.2 with
    | none => rw [hv] at h; simp at h
    | some v =>
      rw [hv] at h
      cases hr : encodeItems rest with
      | none => rw [hr] at h; simp at h
      | some ps =>
        rw [hr] at h
        simp only [Option.some.injEq] at h
        simp [streamItems, hv, ih ps hr, h]

theorem encodeItems_of_streamItems (kvs : List (String × SV))
    (parts : List String) (h : streamItems kvs = .ok parts) :
    encodeItems kvs = some parts := by
  induction kvs generalizing parts with
  | nil =>
    simp only [streamItems, Except.ok.injEq] at h
    simp [encodeItems, h]
  | cons kv rest ih =>
    simp only [streamItems] at h
    cases hv : encodeValue kv.2 with
    | none => rw [hv] at h; simp at h
    | some v =>
      rw [hv] at h
      cases hr : streamItems rest with
      | error frag => rw [hr] at h; simp at h
      | ok ps =>
        rw [hr] at h
        simp only [Except.ok.injEq] at h
        simp [encodeItems, hv, ih ps hr, h]

theorem streamItems_error_of_encodeItems_none (kvs : List (String × SV))
    (h : encodeItems kvs = none) : ∃ frag, streamItems kvs = .error frag := by
  induction kvs with
  | nil => simp [encodeItems] at h
  | cons kv rest ih =>
    simp only [encodeItems] at h
    cases hv : encodeValue kv.2 with
    | none => exact ⟨encodeJString kv.1 ++ ": ", by simp [streamItems, hv]⟩
    | some v =>
      rw [hv] at h
      cases hr : encodeItems rest with
      | some ps => rw [hr] at h; simp at h
      | none =>
        obtain ⟨frag, hfrag⟩ := ih hr
        exact ⟨encodeJString kv.1 ++ ": " ++ v ++ ", " ++ frag,
          by simp [streamItems, hv, hfrag]⟩

theorem dumpObj_ok_of_encodeObj (kvs : List (String × SV)) (t : String)
    (h : encodeObj kvs = some t) : dumpObj kvs = .ok t := by
  simp only [encodeObj, Option.map_eq_some'] at h
  obtain ⟨parts, hparts, ht⟩ := h
  simp [dumpObj, streamItems_of_encodeItems kvs parts hparts, ht]

theorem encodeObj_of_dumpObj_ok (kvs : List (String × SV)) (t : String)
    (h : dumpObj kvs = .ok t) : encodeObj kvs = some t := by
  simp only [dumpObj] at h
  cases hs : streamItems kvs with
  | error frag => rw [hs] at h; simp at h
  | ok parts =>
    rw [hs] at h
    simp only [Except.ok.injEq] at h
    simp [encodeObj, encodeItems_of_streamItems kvs parts hs, h]

theorem dumpObj_error_of_encodeObj_none (kvs : List (String × SV))
    (h : encodeObj kvs = none) : ∃ frag, dumpObj kvs = .error frag := by
  simp only [encodeObj, Option.map_eq_none'] at h
  obtain ⟨frag, hfrag⟩ := streamItems_error_of_encodeItems_none kvs h
  exact ⟨"\x7b" ++ frag, by simp [dumpObj, hfrag]⟩

theorem writeRows_ok_spec (cols : List String) (rows : List (List SV))
    (h : (writeRows cols rows).2 = .ok ()) :
    ∃ ls : List String,
      List.Forall₂ (fun l r => rowLine cols r = some l) ls rows ∧
      (writeRows cols rows).1 = unlines ls := by
  induction rows with
  | nil => exact ⟨[], List.Forall₂.nil, rfl⟩
  | cons row rest ih =>
    simp only [writeRows] at h ⊢
    cases hd : dumpObj (dictZip cols row) with
    | error frag => rw [hd] at h; exact absurd h (by simp)
    | ok line =>
      rw [hd] at h
      simp only at h
      obtain ⟨ls, hf, hout⟩ := ih h
      exact ⟨line :: ls,
        List.Forall₂.cons (encodeObj_of_dumpObj_ok _ line hd) hf,
        by simp [unlines, hout]⟩

theorem writeRows_all_ok (cols : List String) (rows : List (List SV))
    (h : ∀ r ∈ rows, (rowLine cols r).isSome) :
    (writeRows cols rows).2 = .ok () := by
  induction rows with
  | nil => rfl
  | cons row rest ih =>
    have hsome := h row (by simp)
    cases hline : rowLine cols row with
    | none => rw [hline] at hsome; exact absurd hsome (by simp)
    | some line =>
      have hd : dumpObj (dictZip cols row) = .ok line :=
        dumpObj_ok_of_encodeObj _ line hline
      simp only [writeRows, hd]
      exact ih (fun r hr => h r (by simp [hr]))

theorem writeRows_fail_spec (cols : List String) (rows1 : List (List SV))
    (bad : List SV) (rows2 : List (List SV)) (frag : String)
    (hgood : ∀ r ∈ rows1, (rowLine cols r).isSome)
    (hbad : dumpObj (dictZip cols bad) = .error frag) :
    ∃ ls : List String,
      List.Forall₂ (fun l r => rowLine cols r = some l) ls rows1 ∧
      writeRows cols (rows1 ++ bad :: rows2) =
        (unlines ls ++ frag, .error .serializationFailed) := by
  induction rows1 with
  | nil =>
    refine ⟨[], List.Forall₂.nil, ?_⟩
    simp [writeRows, hbad, unlines]
  | cons row rest ih =>
    have hsome := hgood row (by simp)
    cases hline : rowLine cols row with
    | none => rw [hline] at hsome; exact absurd hsome (by simp)
    | some line =>
      have hd : dumpObj (dictZip cols row) = .ok line :=
        dumpObj_ok_of_encodeObj _ line hline
      obtain ⟨ls, hf, hw⟩ := ih (fun r hr => hgood r (by simp [hr]))
      refine ⟨line :: ls, List.Forall₂.cons hline hf, ?_⟩
      simp [writeRows, hd, hw, unlines, String.append_assoc]

theorem hexDigitChar_ne_nl (n : Nat) : hexDigitChar n ≠ '\n' := by
  unfold hexDigitChar
  split <;> decide

theorem digitChar_ne_nl (n : Nat) : digitChar n ≠ '\n' := by
  unfold digitChar
  split <;> decide

theorem mem_hex4_ne_nl (m : Nat) (c : Char) (h : c ∈ hex4 m) : c ≠ '\n' := by
  simp only [hex4, List.mem_cons, List.not_mem_nil, or_false] at h
  rcases h with h | h | h | h <;> (subst h; apply hexDigitChar_ne_nl)

theorem mem_escapeChar_ne_nl (c c' : Char) (hm : c' ∈ escapeChar c) :
    c' ≠ '\n' := by
  by_cases h1 : c = '"'
  · subst h1
    have e : escapeChar '"' = ['\\', '"'] := by decide
    rw [e] at hm
    simp only [List.mem_cons, List.not_mem_nil, or_false] at hm
    rcases hm with hm | hm <;> (subst hm; decide)
  by_cases h2 : c = '\\'
  · subst h2
    have e : escapeChar '\\' = ['\\', '\\'] := by decide
    rw [e] at hm
    simp only [List.mem_cons, List.not_mem_nil, or_false] at hm
    rcases hm with hm | hm <;> (subst hm; decide)
  by_cases h3 : c = '\n'
  · subst h3
    have e : escapeChar '\n' = ['\\', 'n'] := by decide
    rw [e] at hm
    simp only [List.mem_cons, List.not_mem_nil, or_false] at hm
    rcases hm with hm | hm <;> (subst hm; decide)
  by_cases h4 : c = '\r'
  · subst h4
    have e : escapeChar '\r' = ['\\', 'r'] := by decide
    rw [e] at hm
    simp only [List.mem_cons, List.not_mem_nil, or_false] at hm
    rcases hm with hm | hm <;> (subst hm; decide)
  by_cases h5 : c = '\t'
  · subst h5
    have e : escapeChar '\t' = ['\\', 't'] := by decide
    rw [e] at hm
    simp only [List.mem_cons, List.not_mem_nil, or_false] at hm
    rcases hm with hm | hm <;> (subst hm; decide)
  simp only [escapeChar, if_neg h1, if_neg h2, if_neg h3, if_neg h4,
    if_neg h5] at hm
  by_cases h6 : c.toNat = 8
  · rw [if_pos h6] at hm
    simp only [List.mem_cons, List.not_mem_nil, or_false] at hm
    rcases hm with hm | hm <;> (subst hm; decide)
  rw [if_neg h6] at hm
  by_cases h7 : c.toNat = 12
  · rw [if_pos h7] at hm
    simp only [List.mem_cons, List.not_mem_nil, or_false] at hm
    rcases hm with hm | hm <;> (subst hm; decide)
  rw [if_neg h7] at hm
  by_cases h8 : c.toNat < 32 ∨ 126 < c.toNat
  · rw [if_pos h8] at hm
    by_cases h9 : c.toNat < 65536
    · rw [if_pos h9] at hm
      simp only [List.mem_cons] at hm
      rcases hm with hm | hm | hm
      · subst hm; decide
      · subst hm; decide
      · exact mem_hex4_ne_nl _ _ hm
    · rw [if_neg h9] at hm
      simp only [List.mem_append, List.mem_cons] at hm
      rcases hm with (hm | hm | hm) | (hm | hm | hm)
      all_goals first
        | (subst hm; decide)
        | (exact mem_hex4_ne_nl _ _ hm)
  · rw [if_neg h8] at hm
    simp only [List.mem_singleton] at hm
    subst hm
    exact h3

theorem encodeJString_nl_free (s : String) : '\n' ∉ (encodeJString s).data := by
  intro h
  simp only [encodeJString, String.data_append, String.mk, List.mem_append,
    List.mem_flatMap] at h
  rcases h with (h | ⟨a, _, ha⟩) | h
  · simp at h
  · exact mem_escapeChar_ne_nl a '\n' ha rfl
  · simp at h

theorem natDigitsAux_nl_free (fuel : Nat) : ∀ n c, c ∈ natDigitsAux fuel n → c ≠ '\n' := by
  induction fuel with
  | zero => intro n c h; simp [natDigitsAux] at h
  | succ fuel ih =>
    intro n c h
    simp only [natDigitsAux] at h
    split at h
    · simp only [List.mem_singleton] at h
      subst h; apply digitChar_ne_nl
    · simp only [List.mem_append, List.mem_singleton] at h
      rcases h with h | h
      · exact ih _ _ h
      · subst h; apply digitChar_ne_nl

theorem intRepr_nl_free (n : Int) : '\n' ∉ (intRepr n).data := by
  intro h
  simp only [intRepr] at h
  split at h
  · simp only [String.data_append, String.mk, List.mem_append] at h
    rcases h with h | h
    · simp at h
    · exact natDigitsAux_nl_free _ _ _ h rfl
  · exact natDigitsAux_nl_free _ _ _ h rfl

theorem goodLit_nl_free (s : String) (h : goodLit s = true) : '\n' ∉ s.data := by
  intro hmem
  simp only [goodLit, Bool.and_eq_true, List.all_eq_true] at h
  have := h.2 '\n' hmem
  simp [realLitChars] at this

theorem encodeValue_nl_free (v : SV) (t : String) (h : encodeValue v = some t)
    (hwf : v.wf = true) : '\n' ∉ t.data := by
  cases v with
  | textV s =>
    simp only [encodeValue, Option.some.injEq] at h
    exact h ▸ encodeJString_nl_free s
  | intV n =>
    simp only [encodeValue, Option.some.injEq] at h
    exact h ▸ intRepr_nl_free n
  | realV lit =>
    simp only [encodeValue, Option.some.injEq] at h
    exact h ▸ goodLit_nl_free lit hwf
  | nullV =>
    simp only [encodeValue, Option.some.injEq] at h
    subst h; decide
  | blobV b => simp [encodeValue] at h

theorem joinSep_nl_free (sep : String) (parts : List String)
    (hsep : '\n' ∉ sep.data) (h : ∀ p ∈ parts, '\n' ∉ p.data) :
    '\n' ∉ (joinSep sep parts).data := by
  induction parts with
  | nil => simp [joinSep]
  | cons x xs ih =>
    cases xs with
    | nil => exact h x (by simp)
    | cons y ys =>
      intro hmem
      simp only [joinSep, String.data_append, List.mem_append] at hmem
      rcases hmem with (hmem | hmem) | hmem
      · exact h x (by simp) hmem
      · exact hsep hmem
      · exact ih (fun p hp => h p (by simp_all)) hmem

theorem encodeItems_nl_free (kvs : List (String × SV)) (parts : List String)
    (h : encodeItems kvs = some parts) (hwf : ∀ kv ∈ kvs, kv.2.wf = true) :
    ∀ p ∈ parts, '\n' ∉ p.data := by
  induction kvs generalizing parts with
  | nil =>
    simp only [encodeItems, Option.some.injEq] at h
    subst h; simp
  | cons kv rest ih =>
    simp only [encodeItems] at h
    cases hv : encodeValue kv.2 with
    | none => rw [hv] at h; simp at h
    | some v =>
      rw [hv] at h
      cases hr : encodeItems rest with
      | none => rw [hr] at h; simp at h
      | some ps =>
        rw [hr] at h
        simp only [Option.some.injEq] at h
        subst h
        intro p hp
        rcases List.mem_cons.mp hp with hp | hp
        · subst hp
          intro hmem
          simp only [String.data_append, List.mem_append] at hmem
          rcases hmem with (hmem | hmem) | hmem
          · exact encodeJString_nl_free kv.1 hmem
          · simp at hmem
          · exact encodeValue_nl_free kv.2 v hv (hwf kv (by simp)) hmem
        · exact ih ps hr (fun q hq => hwf q (by simp [hq])) p hp

theorem encodeObj_nl_free (kvs : List (String × SV)) (t : String)
    (h : encodeObj kvs = some t) (hwf : ∀ kv ∈ kvs, kv.2.wf = true) :
    '\n' ∉ t.data := by
  simp only [encodeObj, Option.map_eq_some'] at h
  obtain ⟨parts, hparts, ht⟩ := h
  subst ht
  intro hmem
  simp only [String.data_append, List.mem_append] at hmem
  rcases hmem with (hmem | hmem) | hmem
  · simp at hmem
  · exact joinSep_nl_free ", " parts (by decide)
      (encodeItems_nl_free kvs parts hparts hwf) hmem
  · simp at hmem

theorem mem_dictInsert (d : List (String × SV)) (k : String) (v : SV)
    (kv : String × SV) (h : kv ∈ dictInsert d k v) : kv ∈ d ∨ kv.2 = v := by
  induction d with
  | nil => simp only [dictInsert, List.mem_singleton] at h; right; rw [h]
  | cons p rest ih =>
    simp only [dictInsert] at h
    split at h
    · rcases List.mem_cons.mp h with h | h
      · right; rw [h]
      · left; exact List.mem_cons_of_mem _ h
    · rcases List.mem_cons.mp h with h | h
      · left; exact h ▸ List.mem_cons_self _ _
      · rcases ih h with h | h
        · left; exact List.mem_cons_of_mem _ h
        · right; exact h

theorem mem_foldl_dictInsert (pairs : List (String × SV))
    (acc : List (String × SV)) (kv : String × SV)
    (h : kv ∈ pairs.foldl (fun d p => dictInsert d p.1 p.2) acc) :
    kv ∈ acc ∨ ∃ p ∈ pairs, kv.2 = p.2 := by
  induction pairs generalizing acc with
  | nil => left; simpa using h
  | cons p rest ih =>
    simp only [List.foldl_cons] at h
    rcases ih (dictInsert acc p.1 p.2) h with h | ⟨q, hq, hv⟩
    · rcases mem_dictInsert acc p.1 p.2 kv h with h | h
      · left; exact h
      · right; exact ⟨p, by simp, h⟩
    · right; exact ⟨q, by simp [hq], hv⟩

theorem mem_dictZip_val (cols : List String) (row : List SV)
    (kv : String × SV) (h : kv ∈ dictZip cols row) : kv.2 ∈ row := by
  rcases mem_foldl_dictInsert (List.zip cols row) [] kv h with h | ⟨p, hp, hv⟩
  · simp at h
  · exact hv ▸ (List.of_mem_zip hp).2

theorem rowLine_nl_free (cols : List String) (row : List SV) (l : String)
    (h : rowLine cols row = some l) (hwf : ∀ v ∈ row, v.wf = true) :
    '\n' ∉ l.data :=
  encodeObj_nl_free (dictZip cols row) l h
    (fun kv hkv => hwf kv.2 (mem_dictZip_val cols row kv hkv))

theorem encodeValue_render (v : SV) (t : String) (h : encodeValue v = some t) :
    ∃ j : JVal, jvalOfSV v = some j ∧ t = j.render ∧
      (v.wf = true → j.wfJ = true) := by
  cases v with
  | textV s =>
    simp only [encodeValue, Option.some.injEq] at h
    exact ⟨.jstr s, rfl, h.symm, fun _ => rfl⟩
  | intV n =>
    simp only [encodeValue, Option.some.injEq] at h
    exact ⟨.jint n, rfl, h.symm, fun _ => rfl⟩
  | realV lit =>
    simp only [encodeValue, Option.some.injEq] at h
    exact ⟨.jnum lit, rfl, h.symm, fun hw => hw⟩
  | nullV =>
    simp only [encodeValue, Option.some.injEq] at h
    exact ⟨.jnull, rfl, h.symm, fun _ => rfl⟩
  | blobV b => simp [encodeValue] at h

theorem encodeItems_render (kvs : List (String × SV)) (parts : List String)
    (h : encodeItems kvs = some parts) :
    ∃ jkvs : List (String × JVal),
      List.Forall₂ (fun kv jkv => kv.1 = jkv.1 ∧ jvalOfSV kv.2 = some jkv.2)
        kvs jkvs ∧
      parts = jkvs.map (fun jkv => encodeJString jkv.1 ++ ": " ++ jkv.2.render) := by
  induction kvs generalizing parts with
  | nil =>
    simp only [encodeItems, Option.some.injEq] at h
    exact ⟨[], List.Forall₂.nil, by simp [h.symm]⟩
  | cons kv rest ih =>
    simp only [encodeItems] at h
    cases hv : encodeValue kv.2 with
    | none => rw [hv] at h; simp at h
    | some v =>
      rw [hv] at h
      cases hr : encodeItems rest with
      | none => rw [hr] at h; simp at h
      | some ps =>
        rw [hr] at h
        simp only [Option.some.injEq] at h
        obtain ⟨j, hj, hrender, _⟩ := encodeValue_render kv.2 v hv
        obtain ⟨jkvs, hf, hps⟩ := ih ps hr
        refine ⟨(kv.1, j) :: jkvs, List.Forall₂.cons ⟨rfl, hj⟩ hf, ?_⟩
        simp [h.symm, hps, hrender]

theorem wfJ_of_jvalOfSV (v : SV) (j : JVal) (h : jvalOfSV v = some j)
    (hwf : v.wf = true) : j.wfJ = true := by
  cases v <;> simp only [jvalOfSV, Option.some.injEq] at h
  case blobV => exact absurd h (by simp)
  all_goals subst h
  case realV lit => exact hwf
  all_goals rfl

theorem wfJ_of_forall₂ (kvs : List (String × SV)) (jkvs : List (String × JVal))
    (hf : List.Forall₂ (fun kv jkv => kv.1 = jkv.1 ∧ jvalOfSV kv.2 = some jkv.2)
      kvs jkvs)
    (hwf : ∀ kv ∈ kvs, kv.2.wf = true) :
    ∀ jkv ∈ jkvs, jkv.2.wfJ = true := by
  induction hf with
  | nil => simp
  | cons hR _ ih =>
    intro jkv hjkv
    rcases List.mem_cons.mp hjkv with h | h
    · subst h
      exact wfJ_of_jvalOfSV _ _ hR.2 (hwf _ (by simp))
    · exact ih (fun kv hkv => hwf kv (by simp [hkv])) jkv h

theorem encodeObj_render (kvs : List (String × SV)) (t : String)
    (h : encodeObj kvs = some t) :
    ∃ jkvs : List (String × JVal),
      List.Forall₂ (fun kv jkv => kv.1 = jkv.1 ∧ jvalOfSV kv.2 = some jkv.2)
        kvs jkvs ∧
      t = renderJObj jkvs := by
  simp only [encodeObj, Option.map_eq_some'] at h
  obtain ⟨parts, hparts, ht⟩ := h
  obtain ⟨jkvs, hf, hps⟩ := encodeItems_render kvs parts hparts
  exact ⟨jkvs, hf, by simp [ht.symm, renderJObj, hps]⟩

theorem export_db_ok (s : Store) (wr : Bool) (d : Option String)
    (cols : List String) (rows : List (List SV))
    (hl : s.tables.lookup tableName = some (cols, rows))
    (hok : (export_logs ⟨.db s, wr, d⟩).outcome = .ok ()) :
    wr = true ∧ (writeRows cols rows).2 = .ok () ∧
    (export_logs ⟨.db s, wr, d⟩).world.dest = some (writeRows cols rows).1 := by
  cases wr with
  | false => simp [export_logs, connect, queryAll, hl] at hok
  | true =>
    cases hw : (writeRows cols rows).2 with
    | error e => simp [export_logs, connect, queryAll, hl, hw] at hok
    | ok u => exact ⟨rfl, rfl, by simp [export_logs, connect, queryAll, hl, hw]⟩

theorem rowLine_strong (cols : List String) (row : List SV) (l : String)
    (h : rowLine cols row = some l) (hwf : ∀ v ∈ row, v.wf = true) :
    '\n' ∉ l.data ∧
    ∃ jkvs : List (String × JVal),
      (∀ jkv ∈ jkvs, jkv.2.wfJ = true) ∧ l = renderJObj jkvs := by
  refine ⟨rowLine_nl_free cols row l h hwf, ?_⟩
  obtain ⟨jkvs, hf, ht⟩ := encodeObj_render (dictZip cols row) l h
  exact ⟨jkvs, wfJ_of_forall₂ _ _ hf
    (fun kv hkv => hwf kv.2 (mem_dictZip_val cols row kv hkv)), ht⟩

theorem forall₂_rowLine_strengthen (cols : List String) :
    ∀ (ls : List String) (rows : List (List SV)),
      List.Forall₂ (fun l row => rowLine cols row = some l) ls rows →
      (∀ row ∈ rows, ∀ v ∈ row, v.wf = true) →
      List.Forall₂ (fun l row =>
        rowLine cols row = some l ∧ '\n' ∉ l.data ∧
        ∃ jkvs : List (String × JVal),
          (∀ jkv ∈ jkvs, jkv.2.wfJ = true) ∧ l = renderJObj jkvs) ls rows := by
  intro ls rows hf
  induction hf with
  | nil => intro _; exact List.Forall₂.nil
  | cons hR hrest ih =>
    intro hwf
    refine List.Forall₂.cons ⟨hR, rowLine_strong _ _ _ hR
      (fun v hv => hwf _ (by simp) v hv)⟩ ?_
    exact ih (fun row hrow => hwf row (by simp [hrow]))

/-- Claim C1: for every source table state with N rows, a successful run of
`export_logs` writes an output file that is exactly the concatenation of N
newline-terminated lines, the i-th line being the serialization of the
i-th row in the order the store returned them (so no line spans two rows
and no two lines share a row); each line contains no newline of its own
and is the text of a standalone JSON object; N = 0 is included.  (The
well-formedness hypothesis only pins down the shape of the float literals
the driver hands over for REAL columns.) -/
theorem c1_n_rows_n_ordered_json_lines (s : Store) (wr : Bool)
    (d : Option String) (cols : List String) (rows : List (List SV))
    (hl : s.tables.lookup tableName = some (cols, rows))
    (hwf : ∀ row ∈ rows, ∀ v ∈ row, v.wf = true)
    (hok : (export_logs ⟨.db s, wr, d⟩).outcome = .ok ()) :
    ∃ ls : List String,
      (export_logs ⟨.db s, wr, d⟩).world.dest = some (unlines ls) ∧
      ls.length = rows.length ∧
      List.Forall₂ (fun l row =>
        rowLine cols row = some l ∧ '\n' ∉ l.data ∧
        ∃ jkvs : List (String × JVal),
          (∀ jkv ∈ jkvs, jkv.2.wfJ = true) ∧ l = renderJObj jkvs) ls rows := by
  obtain ⟨hwr, hwok, hdest⟩ := export_db_ok s wr d cols rows hl hok
  obtain ⟨ls, hf, hout⟩ := writeRows_ok_spec cols rows hwok
  exact ⟨ls, by rw [hdest, hout], hf.length_eq,
    forall₂_rowLine_strengthen cols ls rows hf hwf⟩

/-- A concrete store used by the witnesses: two rows over four columns
exercising every serializable value kind. -/
def demoStore : Store :=
  ⟨[(tableName, (["id", "src_ip", "score", "note"],
    [[SV.intV 1, SV.textV "10.0.0.5", SV.realV "1.5", SV.nullV],
     [SV.intV 2, SV.textV "HELO test", SV.realV "0.25", SV.nullV]]))]⟩

theorem c1_witness :
    demoStore.tables.lookup tableName =
      some (["id", "src_ip", "score", "note"],
        [[SV.intV 1, SV.textV "10.0.0.5", SV.realV "1.5", SV.nullV],
         [SV.intV 2, SV.textV "HELO test", SV.realV "0.25", SV.nullV]]) ∧
    (∀ row ∈ [[SV.intV 1, SV.textV "10.0.0.5", SV.realV "1.5", SV.nullV],
         [SV.intV 2, SV.textV "HELO test", SV.realV "0.25", SV.nullV]],
      ∀ v ∈ row, v.wf = true) ∧
    (export_logs ⟨.db demoStore, true, none⟩).outcome = .ok () ∧
    ∃ ls : List String,
      (export_logs ⟨.db demoStore, true, none⟩).world.dest =
        some (unlines ls) ∧
      ls.length = 2 ∧
      List.Forall₂ (fun l row =>
        rowLine ["id", "src_ip", "score", "note"] row = some l ∧
        '\n' ∉ l.data ∧
        ∃ jkvs : List (String × JVal),
          (∀ jkv ∈ jkvs, jkv.2.wfJ = true) ∧ l = renderJObj jkvs) ls
        [[SV.intV 1, SV.textV "10.0.0.5", SV.realV "1.5", SV.nullV],
         [SV.intV 2, SV.textV "HELO test", SV.realV "0.25", SV.nullV]] :=
  ⟨by decide, by decide, by decide,
    c1_n_rows_n_ordered_json_lines demoStore true none
      ["id", "src_ip", "score", "note"]
      [[SV.intV 1, SV.textV "10.0.0.5", SV.realV "1.5", SV.nullV],
       [SV.intV 2, SV.textV "HELO test", SV.realV "0.25", SV.nullV]]
      (by decide) (by decide) (by decide)⟩

/-- Claim C2: for a row whose length matches the (duplicate-free) column
list, `dict(zip(columns, row))` has exactly the column names as field
names, in declaration order, and pairs each column with the value at its
position, so the output line is the serialization of `zip columns row`. -/
theorem c2_field_names_follow_columns (cols : List String) (row : List SV)
    (hnd : cols.Nodup) (hlen : row.length = cols.length) :
    (dictZip cols row).map Prod.fst = cols ∧
    dictZip cols row = List.zip cols row ∧
    rowLine cols row = encodeObj (List.zip cols row) := by
  have hz := dictZip_eq_zip cols row hnd
  refine ⟨?_, hz, by rw [rowLine, hz]⟩
  rw [hz, map_fst_zip_eq_take, hlen, List.take_length]

theorem c2_witness :
    (["id", "src_ip"] : List String).Nodup ∧
    ([SV.intV 1, SV.textV "10.0.0.5"] : List SV).length =
      (["id", "src_ip"] : List String).length ∧
    ((dictZip ["id", "src_ip"] [SV.intV 1, SV.textV "10.0.0.5"]).map Prod.fst =
        ["id", "src_ip"] ∧
      dictZip ["id", "src_ip"] [SV.intV 1, SV.textV "10.0.0.5"] =
        List.zip ["id", "src_ip"] [SV.intV 1, SV.textV "10.0.0.5"] ∧
      rowLine ["id", "src_ip"] [SV.intV 1, SV.textV "10.0.0.5"] =
        encodeObj (List.zip ["id", "src_ip"] [SV.intV 1, SV.textV "10.0.0.5"])) :=
  ⟨by decide, by decide,
    c2_field_names_follow_columns ["id", "src_ip"]
      [SV.intV 1, SV.textV "10.0.0.5"] (by decide) (by decide)⟩

theorem encodeItems_isSome (kvs : List (String × SV))
    (h : ∀ kv ∈ kvs, (encodeValue kv.2).isSome) :
    ∃ parts, encodeItems kvs = some parts := by
  induction kvs with
  | nil => exact ⟨[], rfl⟩
  | cons kv rest ih =>
    have hv := h kv (by simp)
    cases hev : encodeValue kv.2 with
    | none => rw [hev] at hv; exact absurd hv (by simp)
    | some v =>
      obtain ⟨parts, hp⟩ := ih (fun q hq => h q (by simp [hq]))
      exact ⟨(encodeJString kv.1 ++ ": " ++ v) :: parts,
        by simp [encodeItems, hev, hp]⟩

/-- Claim C10: when the row's value count differs from the column count,
no error is raised: `zip` truncates to the shorter side, so the emitted
object has exactly `min (number of columns) (row length)` fields, pairing
columns with values positionally and silently dropping the unmatched
excess; serialization succeeds whenever the paired values are
serializable. -/
theorem c10_length_mismatch_truncates (cols : List String) (row : List SV)
    (hnd : cols.Nodup) :
    dictZip cols row = List.zip cols row ∧
    (dictZip cols row).length = min cols.length row.length ∧
    ((∀ kv ∈ List.zip cols row, (encodeValue kv.2).isSome) →
      ∃ l, rowLine cols row = some l) := by
  have hz := dictZip_eq_zip cols row hnd
  refine ⟨hz, by rw [hz, List.length_zip], ?_⟩
  intro h
  obtain ⟨parts, hp⟩ := encodeItems_isSome (List.zip cols row) h
  rw [rowLine, hz]
  exact ⟨"\x7b" ++ joinSep ", " parts ++ "\x7d", by simp [encodeObj, hp]⟩

theorem c10_witness :
    (["a", "b", "c"] : List String).Nodup ∧
    (dictZip ["a", "b", "c"] [SV.intV 1, SV.nullV] =
        List.zip ["a", "b", "c"] [SV.intV 1, SV.nullV] ∧
      (dictZip ["a", "b", "c"] [SV.intV 1, SV.nullV]).length =
        min (["a", "b", "c"] : List String).length
          ([SV.intV 1, SV.nullV] : List SV).length ∧
      ((∀ kv ∈ List.zip ["a", "b", "c"] [SV.intV 1, SV.nullV],
          (encodeValue kv.2).isSome) →
        ∃ l, rowLine ["a", "b", "c"] [SV.intV 1, SV.nullV] = some l)) :=
  ⟨by decide,
    c10_length_mismatch_truncates ["a", "b", "c"] [SV.intV 1, SV.nullV]
      (by decide)⟩

/-- Claim C7: when the store is valid but has no `smtp_sessions` table,
the run fails with the no-such-table error at the query stage, and the
destination file is neither opened nor truncated (its content is whatever
it was before the run). -/
theorem c7_missing_table_fails_before_open (s : Store) (wr : Bool)
    (d : Option String) (hl : s.tables.lookup tableName = none) :
    (export_logs ⟨.db s, wr, d⟩).outcome = .error .noSuchTable ∧
    (export_logs ⟨.db s, wr, d⟩).world.dest = d ∧
    (export_logs ⟨.db s, wr, d⟩).fileOpened = false := by
  refine ⟨?_, ?_, ?_⟩ <;> simp [export_logs, connect, queryAll, hl]

theorem c7_witness :
    (⟨[("other_table", ([], []))]⟩ : Store).tables.lookup tableName = none ∧
    ((export_logs ⟨.db ⟨[("other_table", ([], []))]⟩, true, some "keep"⟩).outcome =
        .error .noSuchTable ∧
      (export_logs ⟨.db ⟨[("other_table", ([], []))]⟩, true, some "keep"⟩).world.dest =
        some "keep" ∧
      (export_logs ⟨.db ⟨[("other_table", ([], []))]⟩, true, some "keep"⟩).fileOpened =
        false) :=
  ⟨by decide,
    c7_missing_table_fails_before_open ⟨[("other_table", ([], []))]⟩ true
      (some "keep") (by decide)⟩

/-- Claim C8: when the table exists and is empty, the run succeeds and the
destination file is created (or truncated) to the zero-line, zero-length
content — `unlines []`, the empty string — whatever it held before. -/
theorem c8_empty_table_zero_length (s : Store) (d : Option String)
    (cols : List String)
    (hl : s.tables.lookup tableName = some (cols, [])) :
    (export_logs ⟨.db s, true, d⟩).outcome = .ok () ∧
    (export_logs ⟨.db s, true, d⟩).world.dest = some (unlines []) ∧
    (export_logs ⟨.db s, true, d⟩).fileOpened = true := by
  refine ⟨?_, ?_, ?_⟩ <;>
    simp [export_logs, connect, queryAll, hl, writeRows, unlines]

theorem c8_witness :
    (⟨[(tableName, (["id"], []))]⟩ : Store).tables.lookup tableName =
      some (["id"], []) ∧
    ((export_logs ⟨.db ⟨[(tableName, (["id"], []))]⟩, true, some "stale"⟩).outcome =
        .ok () ∧
      (export_logs ⟨.db ⟨[(tableName, (["id"], []))]⟩, true, some "stale"⟩).world.dest =
        some (unlines []) ∧
      (export_logs ⟨.db ⟨[(tableName, (["id"], []))]⟩, true, some "stale"⟩).fileOpened =
        true) :=
  ⟨by decide,
    c8_empty_table_zero_length ⟨[(tableName, (["id"], []))]⟩ (some "stale")
      ["id"] (by decide)⟩

theorem export_db_run_eq (s : Store) (d : Option String) (cols : List String)
    (rows : List (List SV))
    (hl : s.tables.lookup tableName = some (cols, rows))
    (hw : (writeRows cols rows).2 = .ok ()) :
    export_logs ⟨.db s, true, d⟩ =
      ⟨⟨.db s, true, some (writeRows cols rows).1⟩, .ok (),
        true, true, true, true⟩ := by
  simp [export_logs, connect, queryAll, hl, hw]

/-- Claim C3: the final content of the destination is a function of the
source store alone.  Hence (first conjunct) running `export_logs` a second
time on the world the first successful run left behind — same source —
produces a byte-identical destination file, and (second conjunct) a
successful run replaces whatever the destination held before: two runs
from different prior destination contents end with the same content, so
nothing of the prior content survives (no appending, no residue). -/
theorem c3_overwrite_deterministic (s : Store) (wr : Bool) (d : Option String)
    (hok : (export_logs ⟨.db s, wr, d⟩).outcome = .ok ()) :
    (export_logs (export_logs ⟨.db s, wr, d⟩).world).world.dest =
      (export_logs ⟨.db s, wr, d⟩).world.dest ∧
    ∀ d' : Option String,
      (export_logs ⟨.db s, wr, d'⟩).world.dest =
        (export_logs ⟨.db s, wr, d⟩).world.dest := by
  cases hl : s.tables.lookup tableName with
  | none =>
    exact absurd hok (by simp [export_logs, connect, queryAll, hl])
  | some t =>
    obtain ⟨cols, rows⟩ := t
    obtain ⟨hwr, hw, _⟩ := export_db_ok s wr d cols rows hl hok
    subst hwr
    constructor
    · rw [export_db_run_eq s d cols rows hl hw]
      rw [export_db_run_eq s (some (writeRows cols rows).1) cols rows hl hw]
    · intro d'
      rw [export_db_run_eq s d' cols rows hl hw,
        export_db_run_eq s d cols rows hl hw]

theorem c3_witness :
    (export_logs ⟨.db demoStore, true, some "previous junk"⟩).outcome =
      .ok () ∧
    ((export_logs
        (export_logs ⟨.db demoStore, true, some "previous junk"⟩).world).world.dest =
      (export_logs ⟨.db demoStore, true, some "previous junk"⟩).world.dest ∧
    ∀ d' : Option String,
      (export_logs ⟨.db demoStore, true, d'⟩).world.dest =
        (export_logs ⟨.db demoStore, true, some "previous junk"⟩).world.dest) :=
  ⟨by decide,
    c3_overwrite_deterministic demoStore true (some "previous junk")
      (by decide)⟩

/-- Claim C4 is false on the code: `sqlite3.connect` on a missing source
path does not fail — it creates an empty database file and succeeds — so
the run does not fail with `StoreUnavailable` at the connect stage.  At
the concrete input below (missing source, destination holding "old") the
run opens a connection (creating the store), fails at the query stage
with the no-such-table error, and only the destination-untouched half of
the claim holds. -/
theorem c4_counterexample :
    export_logs ⟨.missing, true, some "old"⟩ =
      ⟨⟨.db emptyStore, true, some "old"⟩, .error .noSuchTable,
        true, false, false, false⟩ ∧
    ExportError.noSuchTable ≠ ExportError.storeUnavailable ∧
    (export_logs ⟨.missing, true, some "old"⟩).world.source ≠ .missing :=
  ⟨by decide, by decide, by decide⟩

/-- Claim C4 as amended: a missing source file passes `connect` (which
creates an empty store as a side effect) and the run fails at the query
stage with the no-such-table error; a file that exists but is not a valid
store also passes `connect` (the check is lazy) and fails at the query
stage with the not-a-database error; only a path that cannot be opened at
the OS level fails at the connect stage with `storeUnavailable`.  In all
three cases the destination file is left untouched — not created and not
truncated — and the output file is never opened. -/
theorem c4_amended_failure_stages (wr : Bool) (d : Option String) :
    (export_logs ⟨.missing, wr, d⟩).outcome = .error .noSuchTable ∧
    (export_logs ⟨.missing, wr, d⟩).world.dest = d ∧
    (export_logs ⟨.missing, wr, d⟩).world.source = .db emptyStore ∧
    (export_logs ⟨.missing, wr, d⟩).connOpened = true ∧
    (export_logs ⟨.notDB, wr, d⟩).outcome = .error .notADatabase ∧
    (export_logs ⟨.notDB, wr, d⟩).world.dest = d ∧
    (export_logs ⟨.unopenable, wr, d⟩).outcome = .error .storeUnavailable ∧
    (export_logs ⟨.unopenable, wr, d⟩).connOpened = false ∧
    (export_logs ⟨.unopenable, wr, d⟩).world.dest = d ∧
    (export_logs ⟨.missing, wr, d⟩).fileOpened = false ∧
    (export_logs ⟨.notDB, wr, d⟩).fileOpened = false ∧
    (export_logs ⟨.unopenable, wr, d⟩).fileOpened = false := by
  refine ⟨?_, ?_, ?_, ?_, ?_, ?_, ?_, ?_, ?_, ?_, ?_, ?_⟩ <;>
    simp [export_logs, connect, queryAll, emptyStore, tableName]

/-- The store used by the C5 and C9 theorems: the second row holds a
blob, which `json.dump` cannot serialize. -/
def blobStore : Store :=
  ⟨[(tableName, (["id", "payload"],
    [[SV.intV 1, SV.textV "ok"],
     [SV.intV 2, SV.blobV [255, 0]],
     [SV.intV 3, SV.textV "never written"]]))]⟩

/-- Claim C5 is false on the code in its "exactly the serialized lines
flushed for the rows processed before the failing one" part: `json.dump`
streams the pure-Python `iterencode` generator into the file (its
one-shot flag is off, so the atomic C encoder is never used), and by the
time the `TypeError` on the blob value is raised the generator has
already yielded — and the loop written — the failing object's opening
brace, its items before the failing one, and the failing entry's key and
key separator.  At the concrete input below the destination therefore
holds the one preceding line plus the fragment `\x7b"id": 2, "payload": `,
not the preceding line alone.  The abort itself (whole-run error, no
skipping, no rollback) does hold. -/
theorem c5_counterexample :
    (export_logs ⟨.db blobStore, true, none⟩).outcome =
      .error .serializationFailed ∧
    rowLine ["id", "payload"] [SV.intV 1, SV.textV "ok"] =
      some "\x7b\"id\": 1, \"payload\": \"ok\"\x7d" ∧
    (export_logs ⟨.db blobStore, true, none⟩).world.dest =
      some "\x7b\"id\": 1, \"payload\": \"ok\"\x7d\n\x7b\"id\": 2, \"payload\": " ∧
    (export_logs ⟨.db blobStore, true, none⟩).world.dest ≠
      some (unlines ["\x7b\"id\": 1, \"payload\": \"ok\"\x7d"]) :=
  ⟨by decide, by decide, by decide, by decide⟩

/-- Claim C5 as amended: if some row's dict fails to serialize (a blob
value), the whole export aborts with the serialization error — no row is
skipped, no rollback happens — and the destination file is left
containing the newline-terminated serialized lines of the rows that
preceded the failing one, followed by the partial fragment of the
failing row's object that `json.dump` streamed before the `TypeError`
propagated (`dumpObj`'s error value: the opening brace, the items before
the failing one, and the failing entry's key and key separator; no
trailing newline). -/
theorem c5_amended_abort_keeps_flushed_and_fragment (s : Store)
    (d : Option String) (cols : List String) (rows1 : List (List SV))
    (bad : List SV) (rows2 : List (List SV)) (frag : String)
    (hl : s.tables.lookup tableName = some (cols, rows1 ++ bad :: rows2))
    (hgood : ∀ r ∈ rows1, (rowLine cols r).isSome)
    (hbad : dumpObj (dictZip cols bad) = .error frag) :
    ∃ ls : List String,
      List.Forall₂ (fun l r => rowLine cols r = some l) ls rows1 ∧
      (export_logs ⟨.db s, true, d⟩).outcome =
        .error .serializationFailed ∧
      (export_logs ⟨.db s, true, d⟩).world.dest =
        some (unlines ls ++ frag) := by
  obtain ⟨ls, hf, hw⟩ := writeRows_fail_spec cols rows1 bad rows2 frag hgood hbad
  exact ⟨ls, hf, by simp [export_logs, connect, queryAll, hl, hw],
    by simp [export_logs, connect, queryAll, hl, hw]⟩

theorem c5_amended_witness :
    blobStore.tables.lookup tableName =
      some (["id", "payload"],
        [[SV.intV 1, SV.textV "ok"]] ++
          [SV.intV 2, SV.blobV [255, 0]] :: [[SV.intV 3, SV.textV "never written"]]) ∧
    (∀ r ∈ [[SV.intV 1, SV.textV "ok"]],
      (rowLine ["id", "payload"] r).isSome) ∧
    dumpObj (dictZip ["id", "payload"] [SV.intV 2, SV.blobV [255, 0]]) =
      .error "\x7b\"id\": 2, \"payload\": " ∧
    ∃ ls : List String,
      List.Forall₂ (fun l r => rowLine ["id", "payload"] r = some l) ls
        [[SV.intV 1, SV.textV "ok"]] ∧
      (export_logs ⟨.db blobStore, true, none⟩).outcome =
        .error .serializationFailed ∧
      (export_logs ⟨.db blobStore, true, none⟩).world.dest =
        some (unlines ls ++ "\x7b\"id\": 2, \"payload\": ") :=
  ⟨by decide, by decide, by decide,
    c5_amended_abort_keeps_flushed_and_fragment blobStore none
      ["id", "payload"] [[SV.intV 1, SV.textV "ok"]]
      [SV.intV 2, SV.blobV [255, 0]] [[SV.intV 3, SV.textV "never written"]]
      "\x7b\"id\": 2, \"payload\": " (by decide) (by decide) (by decide)⟩

/-- Claim C6: every successfully serialized row's output line is the JSON
text of an object whose fields correspond one-to-one, in order, to the
entries of the row's dict under the stated type mapping — text to JSON
string, integer to JSON number, real to JSON number (its float literal),
NULL to JSON null — and to nothing else (`jvalOfSV` has no other
clause, so no other coercion can occur). -/
theorem c6_type_mapping_round_trip (cols : List String) (row : List SV)
    (l : String) (h : rowLine cols row = some l) :
    ∃ jkvs : List (String × JVal),
      List.Forall₂ (fun kv jkv => kv.1 = jkv.1 ∧ jvalOfSV kv.2 = some jkv.2)
        (dictZip cols row) jkvs ∧
      l = renderJObj jkvs :=
  encodeObj_render (dictZip cols row) l h

theorem c6_witness :
    rowLine ["id", "src_ip", "score", "note"]
        [SV.intV 1, SV.textV "10.0.0.5", SV.realV "1.5", SV.nullV] =
      some "\x7b\"id\": 1, \"src_ip\": \"10.0.0.5\", \"score\": 1.5, \"note\": null\x7d" ∧
    ∃ jkvs : List (String × JVal),
      List.Forall₂ (fun kv jkv => kv.1 = jkv.1 ∧ jvalOfSV kv.2 = some jkv.2)
        (dictZip ["id", "src_ip", "score", "note"]
          [SV.intV 1, SV.textV "10.0.0.5", SV.realV "1.5", SV.nullV]) jkvs ∧
      "\x7b\"id\": 1, \"src_ip\": \"10.0.0.5\", \"score\": 1.5, \"note\": null\x7d" =
        renderJObj jkvs :=
  ⟨by decide,
    c6_type_mapping_round_trip ["id", "src_ip", "score", "note"]
      [SV.intV 1, SV.textV "10.0.0.5", SV.realV "1.5", SV.nullV]
      "\x7b\"id\": 1, \"src_ip\": \"10.0.0.5\", \"score\": 1.5, \"note\": null\x7d"
      (by decide)⟩

/-- Claim C9 is false on the code: `conn.close()` is the last statement of
the function body, not in a `finally`/`with`, so on any exception after
`connect` it never runs.  At the concrete input below (a row with a blob)
the run propagates the serialization error with the connection opened but
not closed; only the output file (opened by `with`) is closed. -/
theorem c9_counterexample :
    (export_logs ⟨.db blobStore, true, none⟩).connOpened = true ∧
    (export_logs ⟨.db blobStore, true, none⟩).connClosed = false ∧
    (export_logs ⟨.db blobStore, true, none⟩).outcome =
      .error .serializationFailed ∧
    (export_logs ⟨.db blobStore, true, none⟩).fileOpened = true ∧
    (export_logs ⟨.db blobStore, true, none⟩).fileClosed = true :=
  ⟨by decide, by decide, by decide, by decide, by decide⟩

/-- Claim C9 as amended: the output file handle is released on every exit
path on which it was opened (the `with` block guarantees this), but the
store connection is closed exactly on the fully successful path — on a
query failure, an output-open failure, or a serialization failure, the
trailing manual `conn.close()` is skipped and the connection is not
released before the error propagates. -/
theorem c9_amended_release_ledger (w : World) :
    (export_logs w).fileClosed = (export_logs w).fileOpened ∧
    ((export_logs w).connClosed = true ↔ (export_logs w).outcome = .ok ()) ∧
    ((export_logs w).outcome = .ok () → (export_logs w).connOpened = true) := by
  obtain ⟨src, wr, d⟩ := w
  cases src with
  | missing =>
    refine ⟨?_, ?_, ?_⟩ <;> simp [export_logs, connect, queryAll, emptyStore, tableName]
  | notDB =>
    refine ⟨?_, ?_, ?_⟩ <;> simp [export_logs, connect, queryAll]
  | unopenable =>
    refine ⟨?_, ?_, ?_⟩ <;> simp [export_logs, connect]
  | db s =>
    cases hl : s.tables.lookup tableName with
    | none =>
      refine ⟨?_, ?_, ?_⟩ <;> simp [export_logs, connect, queryAll, hl]
    | some t =>
      obtain ⟨cols, rows⟩ := t
      cases wr with
      | false =>
        refine ⟨?_, ?_, ?_⟩ <;> simp [export_logs, connect, queryAll, hl]
      | true =>
        cases hw : (writeRows cols rows).2 with
        | error e =>
          refine ⟨?_, ?_, ?_⟩ <;>
            simp [export_logs, connect, queryAll, hl, hw]
        | ok u =>
          refine ⟨?_, ?_, ?_⟩ <;>
            simp [export_logs, connect, queryAll, hl, hw]
